import Mathlib

/-!
Verification of the ClawWork revenue-pipeline core: a shallow embedding of
`revenue/core/engine.py` (the agentic loop) and `revenue/core/tools.py`
(search, file creation, sandboxed code execution), together with proofs of
the behavioural properties stated in the specification.

Conventions of the embedding:
* Python strings are Lean `String`s; Python slicing/iteration is by
  character, matched by working on `String.data : List Char`.
* The external collaborators (LLM provider, Tavily client, DuckDuckGo,
  docx/pdf rendering backends, the on-disk filesystem, the sandboxed
  subprocess) are oracles passed in as explicit parameters.
* Python exceptions from collaborators are modelled with `Except`; a
  raising call site that the source wraps in `try/except` becomes a match
  on the oracle's outcome.
-/

namespace ClawWork

/-! ## Python string primitives used by the source -/

/-- Model of Python `c.isalnum() or c in " ._-"` from `_create_file`
(`tools.py`, filename sanitization). `isalnum` is modelled for the ASCII
range via `Char.isAlphanum`. -/
def pyKeepChar (c : Char) : Bool :=
  c.isAlphanum || c = ' ' || c = '.' || c = '_' || c = '-'

/-- Model of Python `str.strip()` on a character list: remove leading and
trailing whitespace. -/
def pyStrip (l : List Char) : List Char :=
  ((l.dropWhile Char.isWhitespace).reverse.dropWhile Char.isWhitespace).reverse

/-- `str.strip()` lifted to `String`. -/
def pyStripStr (s : String) : String :=
  String.mk (pyStrip s.data)

/-- The filename sanitization of `_create_file` (`tools.py` lines 280-281):
`safe_name = "".join(c for c in filename if c.isalnum() or c in " ._-").strip()`
followed by `safe_name = safe_name or "output"`. -/
def pySanitize (filename : String) : String :=
  let s := String.mk (pyStrip (filename.data.filter pyKeepChar))
  if s = "" then "output" else s

/-- `l.take` on a string, modelling Python slicing `s[:n]` (by characters). -/
def strTake (s : String) (n : Nat) : String :=
  String.mk (s.data.take n)

/-- Dropping the first `n` characters, modelling Python slicing `s[n:]`. -/
def strDrop (s : String) (n : Nat) : String :=
  String.mk (s.data.drop n)

/-- Whether `pat` is a leading segment of `l` (used to model Python
`str.startswith`). -/
def charsStartWith : List Char → List Char → Bool
  | _, [] => true
  | [], _ :: _ => false
  | a :: l, b :: m => decide (a = b) && charsStartWith l m

/-- `charsStartWith` lifted to `String`, modelling Python `str.startswith`. -/
def strStartsWith (s pat : String) : Bool :=
  charsStartWith s.data pat.data

/-- Whether `suff` is a trailing segment of `s`. -/
def strHasSuffix (s suff : String) : Bool :=
  List.isSuffixOf suff.data s.data

/-- Worker for `pyReplace`, structurally recursive on a character budget
that starts at the length of the scanned list (each step consumes at least
one character, so the budget never runs out on the initial call). -/
def pyReplaceGo (pat rep : List Char) : Nat → List Char → List Char
  | 0, l => l
  | fuel + 1, l =>
    match l with
    | [] => []
    | a :: t =>
      if pat = [] then a :: t
      else if charsStartWith (a :: t) pat then
        rep ++ pyReplaceGo pat rep fuel ((a :: t).drop pat.length)
      else
        a :: pyReplaceGo pat rep fuel t

/-- Model of Python `str.replace(pat, rep)`: replace every (non-overlapping,
left-to-right) occurrence of `pat` by `rep`. Used by the `.pdf` fallback in
`_create_file` (`file_path.replace(".pdf", "_fallback.txt")`). -/
def pyReplace (s pat rep : String) : String :=
  String.mk (pyReplaceGo pat.data rep.data s.data.length s.data)

/-- Model of Python `str.splitlines()` for newline-separated process
output. A trailing newline yields one extra empty piece compared to
Python; empty pieces are never marker lines, so this difference is inert
everywhere the source uses `splitlines`. -/
def pySplitlines (s : String) : List String :=
  s.splitOn "\n"

/-! ## Filesystem model

The on-disk state is an oracle mapping an absolute path to the textual
content stored there (`none` when the path does not exist). `os.path.getsize`
is modelled as the UTF-8 byte size of the stored content. -/

/-- Filesystem snapshot: path to content (if the path exists). -/
def FS : Type := String → Option String

/-- Writing a file: the model of `open(p, "w").write(c)` / a backend
saving rendered bytes at `p`. -/
def fsWrite (fs : FS) (p c : String) : FS :=
  fun q => if q = p then some c else fs q

/-! ## `_create_file` (`tools.py` lines 272-359) -/

/-- The returned dict of `_create_file`; absent keys are `none`. -/
structure CreateResult where
  file_path : Option String
  status : Option String
  type : Option String
  note : Option String
  size_bytes : Option Nat
  error : Option String
deriving DecidableEq, Repr

/-- The plain-text formats handled by a direct write
(`file_type in ("txt", "md", "csv", "json")`). -/
def supportedText : List String := ["txt", "md", "csv", "json"]

/-- Shallow embedding of `_create_file`. The docx and pdf rendering
backends are oracles from the document content to either the rendered
bytes or the message of the exception they raise. Returns the tool-result
dict together with the filesystem after the call. The exception text of
`os.path.getsize` on a missing path is modelled by a fixed message. -/
def create_file (docxRender pdfRender : String → Except String String)
    (fs : FS) (filename content file_type output_dir : String) :
    CreateResult × FS :=
  let safe_name := pySanitize filename
  let file_path := output_dir ++ "/" ++ safe_name ++ "." ++ file_type
  if file_type ∈ supportedText then
    ({ file_path := some file_path, status := some "created",
       type := some file_type, note := none,
       size_bytes := some content.utf8ByteSize, error := none },
     fsWrite fs file_path content)
  else if file_type = "docx" then
    match docxRender content with
    | .ok bytes =>
      ({ file_path := some file_path, status := some "created",
         type := some file_type, note := none,
         size_bytes := some bytes.utf8ByteSize, error := none },
       fsWrite fs file_path bytes)
    | .error e =>
      ({ file_path := none, status := none, type := none, note := none,
         size_bytes := none, error := some e }, fs)
  else if file_type = "pdf" then
    match pdfRender content with
    | .ok bytes =>
      ({ file_path := some file_path, status := some "created",
         type := some file_type, note := none,
         size_bytes := some bytes.utf8ByteSize, error := none },
       fsWrite fs file_path bytes)
    | .error pdf_exc =>
      let fallback_path := pyReplace file_path ".pdf" "_fallback.txt"
      ({ file_path := some fallback_path, status := some "created_as_txt",
         type := none,
         note := some ("PDF generation failed (" ++ pdf_exc ++ "), saved as txt"),
         size_bytes := some content.utf8ByteSize, error := none },
       fsWrite fs fallback_path content)
  else
    match fs file_path with
    | some existing =>
      ({ file_path := some file_path, status := some "created",
         type := some file_type, note := none,
         size_bytes := some existing.utf8ByteSize, error := none }, fs)
    | none =>
      ({ file_path := none, status := none, type := none, note := none,
         size_bytes := none,
         error := some ("No such file or directory: " ++ file_path) }, fs)

/-- The path of the plain-text fallback written when PDF generation fails
(`file_path.replace(".pdf", "_fallback.txt")` on the target path). -/
def pdfFallbackPath (output_dir filename : String) : String :=
  pyReplace (output_dir ++ "/" ++ pySanitize filename ++ "." ++ "pdf") ".pdf" "_fallback.txt"

/-! ## `_search_web` (`tools.py` lines 190-230) -/

/-- One entry of the result list built by `_search_web`. -/
structure SearchEntry where
  title : String
  url : String
  snippet : String
deriving DecidableEq, Repr

/-- One raw result dict from the Tavily client (`resp["results"]`);
`none` fields model absent keys (the source reads them with `.get(k, "")`). -/
structure TavilyItem where
  title : Option String
  url : Option String
  content : Option String
deriving DecidableEq, Repr

/-- One element of the DuckDuckGo `RelatedTopics` array. `entry text url`
models a dict, where `text = some s` means the `"Text"` key is present
(the source keeps a topic iff `isinstance(topic, dict) and "Text" in topic`);
`other` models a non-dict element. -/
inductive DdgTopic where
  | entry (text : Option String) (firstUrl : Option String)
  | other
deriving DecidableEq, Repr

/-- The dict returned by `_search_web`; absent keys are `none`. -/
structure SearchOutput where
  query : String
  results : List SearchEntry
  source : Option String
  error : Option String
deriving DecidableEq, Repr

/-- Shallow embedding of `_search_web`. `apiKey` is the value of
`WEB_SEARCH_API_KEY or TAVILY_API_KEY`; `tavily` is the Tavily client
search call (arguments: query and the `max_results` the source passes it);
`ddg` is the parsed JSON of the DuckDuckGo request (`RelatedTopics`).
Either oracle may raise, modelled with `Except`. -/
def search_web (apiKey : Option String)
    (tavily : String → Nat → Except String (List TavilyItem))
    (ddg : Except String (List DdgTopic))
    (query : String) (max_results : Nat) : SearchOutput :=
  match apiKey with
  | some _ =>
    match tavily query (min max_results 10) with
    | .ok items =>
      { query := query,
        results := items.map (fun r =>
          { title := r.title.getD "", url := r.url.getD "",
            snippet := strTake (r.content.getD "") 600 }),
        source := some "tavily", error := none }
    | .error exc =>
      { query := query, results := [], source := none, error := some exc }
  | none =>
    match ddg with
    | .ok topics =>
      { query := query,
        results := (topics.take max_results).filterMap (fun t =>
          match t with
          | .entry (some text) firstUrl =>
            some { title := strTake text 100, url := firstUrl.getD "",
                   snippet := text }
          | .entry none _ => none
          | .other => none),
        source := some "duckduckgo", error := none }
    | .error exc =>
      { query := query, results := [], source := none,
        error := some ("No search provider available: " ++ exc) }

/-! ## `_execute_python` (`tools.py` lines 362-419) -/

/-- Extraction of one announced artifact path from one stdout line:
after `line.strip()`, a `FILE:` line yields `line[5:].strip()` and an
`ARTIFACT_PATH:` line yields `line[14:].strip()`. This definition follows
the spec's wording of the marker protocol and is compared against the
source's fused extract-and-check loop below. -/
def markerPath (line : String) : Option String :=
  if strStartsWith (pyStripStr line) "FILE:" then
    some (pyStripStr (strDrop (pyStripStr line) 5))
  else if strStartsWith (pyStripStr line) "ARTIFACT_PATH:" then
    some (pyStripStr (strDrop (pyStripStr line) 14))
  else none

/-- All paths announced on stdout via the marker protocol, in order
(spec-side definition: no existence check). -/
def announcedPaths (lines : List String) : List String :=
  lines.filterMap markerPath

/-- Source-side embedding of the marker-parsing loop of `_execute_python`
(lines 391-401): scan the stdout lines in order, extract the path of each
`FILE:` / `ARTIFACT_PATH:` line, and keep it only if `os.path.exists`
holds. `fsEx` is the `os.path.exists` oracle at parse time. -/
def collectMarkerFiles (fsEx : String → Bool) : List String → List String
  | [] => []
  | line :: rest =>
    if strStartsWith (pyStripStr line) "FILE:" then
      if fsEx (pyStripStr (strDrop (pyStripStr line) 5)) then
        pyStripStr (strDrop (pyStripStr line) 5) :: collectMarkerFiles fsEx rest
      else collectMarkerFiles fsEx rest
    else if strStartsWith (pyStripStr line) "ARTIFACT_PATH:" then
      if fsEx (pyStripStr (strDrop (pyStripStr line) 14)) then
        pyStripStr (strDrop (pyStripStr line) 14) :: collectMarkerFiles fsEx rest
      else collectMarkerFiles fsEx rest
    else collectMarkerFiles fsEx rest

/-- Outcome of `subprocess.run(["python", tmp_path], ...)`: the process
completed (with captured streams and return code), hit the 90-second
`subprocess.TimeoutExpired`, or the call raised some other exception. -/
inductive SandboxOutcome where
  | completed (stdout stderr : String) (exit_code : Int)
  | timedOut
  | raised (msg : String)
deriving DecidableEq, Repr

/-- The dict returned by `_execute_python`; keys absent from a branch's
dict are `none`. -/
structure ExecResult where
  stdout : Option String
  stderr : Option String
  exit_code : Option Int
  file_paths : List String
  file_path : Option String
  error : Option String
deriving DecidableEq, Repr

/-- Shallow embedding of `_execute_python` from the subprocess outcome on:
`fsEx` is the `os.path.exists` oracle when the markers are parsed. -/
def execute_python (fsEx : String → Bool) (outcome : SandboxOutcome) : ExecResult :=
  match outcome with
  | .completed out err code =>
    let fps := collectMarkerFiles fsEx (pySplitlines out)
    { stdout := some (strTake out 4000), stderr := some (strTake err 1000),
      exit_code := some code, file_paths := fps,
      file_path := fps.head?, error := none }
  | .timedOut =>
    { stdout := some "", stderr := some "", exit_code := none,
      file_paths := [], file_path := none,
      error := some "Code execution timed out (90s)" }
  | .raised msg =>
    { stdout := some "", stderr := some "", exit_code := none,
      file_paths := [], file_path := none, error := some msg }

/-! ## `RevenueEngine.run` (`engine.py` lines 78-248)

The loop is embedded with its collaborators as oracles:
* `trace i` is the outcome of the `i`-th call to
  `client.chat.completions.create` (`i` counts from 1, matching `step`);
* `exec tc` is the dict returned by `execute_tool` for a non-`finish`
  tool call `tc` (only the produced-file keys matter to the loop's
  bookkeeping, so the result type keeps exactly those);
* `fsEx` is the `os.path.exists` snapshot at finalize time.

The conversation (`messages`) only flows back into the provider, which is
already an oracle, so it is not tracked. -/

/-- One tool call of a provider turn. `argSummary` / `argDeliverables`
model `tool_args.get("summary", ...)` and `tool_args.get("deliverables", [])`,
the only arguments the loop itself reads (for the `finish` special case);
malformed JSON arguments degrade to `none` / `[]` exactly as
`json.JSONDecodeError` degrades `tool_args` to `{}`. -/
structure ToolCall where
  id : String
  name : String
  argSummary : Option String
  argDeliverables : List String
deriving DecidableEq, Repr

/-- The produced-file keys of a tool-result dict, as read by the loop's
`for key in ("file_path", "file_paths")` bookkeeping (`none` = key absent
or a non-truthy `None`). -/
structure ToolResult where
  filePath : Option String
  filePaths : Option (List String)
deriving DecidableEq, Repr

/-- Outcome of one provider call: the call raised (`failure`), or returned
an assistant message with `content` and a (possibly empty) list of tool
calls. -/
inductive ProviderOutcome where
  | failure (msg : String)
  | reply (content : Option String) (toolCalls : List ToolCall)
deriving DecidableEq, Repr

/-- The loop's mutable state: `step`, `created_files`, `done`, and the
`status` / `summary` / `error` fields of `session_result` that the loop
writes before finalization. -/
structure LoopState where
  step : Nat
  createdFiles : List String
  done : Bool
  status : String
  summary : String
  error : Option String
deriving DecidableEq, Repr

/-- State at loop entry (`step = 0`, no files, `status = "running"`). -/
def initState : LoopState :=
  { step := 0, createdFiles := [], done := false,
    status := "running", summary := "", error := none }

/-- The file-tracking block of the loop (`engine.py` lines 203-210):
for the keys `file_path` then `file_paths` of the tool result, a truthy
string is appended if not already present, and a truthy list is extended
by its truthy elements (with no duplicate check). -/
def trackFiles (created : List String) (r : ToolResult) : List String :=
  let c1 :=
    match r.filePath with
    | none => created
    | some v =>
      if v = "" then created
      else if v ∈ created then created
      else created ++ [v]
  match r.filePaths with
  | none => c1
  | some l =>
    if l = [] then c1
    else c1 ++ l.filter (fun p => decide (p ≠ ""))

/-- `created_files.extend([d for d in deliverables if d not in created_files])`
from the `finish` branch (`engine.py` line 186). -/
def mergeDeliverables (created deliverables : List String) : List String :=
  created ++ deliverables.filter (fun d => decide (d ∉ created))

/-- Effect of the `finish` special case (`engine.py` lines 182-193) on the
loop state: status `complete`, agent summary captured, deliverables merged,
loop flagged done. -/
def finishApply (st : LoopState) (tc : ToolCall) : LoopState :=
  { st with status := "complete", summary := tc.argSummary.getD "",
            createdFiles := mergeDeliverables st.createdFiles tc.argDeliverables,
            done := true }

/-- The `for tool_call in assistant_msg.tool_calls` loop
(`engine.py` lines 168-223): `finish` short-circuits via `finishApply`
(and `break`), every other call is dispatched through `exec` and its
produced files tracked; the trailing `if done: break` is kept. -/
def processToolCalls (exec : ToolCall → ToolResult) :
    LoopState → List ToolCall → LoopState
  | st, [] => st
  | st, tc :: rest =>
    if tc.name = "finish" then
      finishApply st tc
    else
      -- the dispatch branch leaves `done` untouched, so the source's
      -- trailing `if done: break` reads the same flag as `st.done`
      if st.done then { st with createdFiles := trackFiles st.createdFiles (exec tc) }
      else processToolCalls exec
        { st with createdFiles := trackFiles st.createdFiles (exec tc) } rest

/-- The `while step < self.max_steps and not done` loop (`engine.py`
lines 134-223), structurally recursive on a fuel that `runPipeline`
instantiates with `maxSteps` (the loop body runs at most `maxSteps` times
since every iteration increments `step`). A provider failure records
status `error` and breaks; an empty tool-call list records status
`complete` with the text (or the `"Task completed."` default for a falsy
text) and breaks; otherwise the tool calls are processed and the loop
continues. -/
def engineGo (maxSteps : Nat) (trace : Nat → ProviderOutcome)
    (exec : ToolCall → ToolResult) : Nat → LoopState → LoopState
  | 0, st => st
  | fuel + 1, st =>
    if st.step < maxSteps ∧ st.done = false then
      match trace (st.step + 1) with
      | .failure exc =>
        { st with step := st.step + 1, status := "error", error := some exc }
      | .reply content toolCalls =>
        if toolCalls = [] then
          { st with step := st.step + 1, status := "complete",
                    summary := (match content with
                                | some c => if c = "" then "Task completed." else c
                                | none => "Task completed."),
                    done := true }
        else
          engineGo maxSteps trace exec fuel
            (processToolCalls exec { st with step := st.step + 1 } toolCalls)
    else st

/-- `list(dict.fromkeys(...))`: de-duplication keeping the first
occurrence of each element, in first-seen order. `seen` is the key set
accumulated so far. -/
def pyDedupGo (seen : List String) : List String → List String
  | [] => []
  | a :: l =>
    if a ∈ seen then pyDedupGo seen l
    else a :: pyDedupGo (seen ++ [a]) l

/-- `list(dict.fromkeys(l))`. -/
def pyDedup (l : List String) : List String :=
  pyDedupGo [] l

/-- The fields of the finalized `session_result` the specification talks
about (the constant identification fields are dropped). -/
structure Session where
  status : String
  summary : String
  error : Option String
  created_files : List String
  steps : Nat
deriving DecidableEq, Repr

/-- Post-loop finalization (`engine.py` lines 225-232): the `if not done`
timeout overwrite, then de-duplication of the file list (the
`created_files` key of `session_result` is still `[]` at this point) and
the existence filter `[f for f in all_files if f and os.path.exists(f)]`,
then the step count. The same record is passed to `save_session_log`
and returned. -/
def finalizeSession (maxSteps : Nat) (fsEx : String → Bool)
    (st : LoopState) : Session :=
  if st.done = false then
    { status := "timeout",
      summary := "Reached max steps (" ++ toString maxSteps ++ ").",
      error := st.error,
      created_files :=
        (pyDedup st.createdFiles).filter (fun f => decide (f ≠ "") && fsEx f),
      steps := st.step }
  else
    { status := st.status, summary := st.summary, error := st.error,
      created_files :=
        (pyDedup st.createdFiles).filter (fun f => decide (f ≠ "") && fsEx f),
      steps := st.step }

/-- End-to-end embedding of `RevenueEngine.run` (session bookkeeping
fields only). -/
def runPipeline (maxSteps : Nat) (trace : Nat → ProviderOutcome)
    (exec : ToolCall → ToolResult) (fsEx : String → Bool) : Session :=
  finalizeSession maxSteps fsEx (engineGo maxSteps trace exec maxSteps initState)

/-- The raw accumulated `created_files` list at loop end, before
de-duplication and the existence filter. -/
def rawFiles (maxSteps : Nat) (trace : Nat → ProviderOutcome)
    (exec : ToolCall → ToolResult) : List String :=
  (engineGo maxSteps trace exec maxSteps initState).createdFiles

/-! ## Helper lemmas: `dropWhile`, `pyStrip`, `pySanitize` -/

theorem dropWhile_self_idem {α : Type} (p : α → Bool) (l : List α) :
    (l.dropWhile p).dropWhile p = l.dropWhile p := by
  induction l with
  | nil => rfl
  | cons a t ih =>
    cases hp : p a with
    | true => simp [List.dropWhile_cons, hp, ih]
    | false => simp [List.dropWhile_cons, hp]

theorem exists_append_dropWhile {α : Type} (p : α → Bool) (l : List α) :
    ∃ t, t ++ l.dropWhile p = l := by
  induction l with
  | nil => exact ⟨[], rfl⟩
  | cons a t ih =>
    cases hp : p a with
    | true =>
      obtain ⟨s, hs⟩ := ih
      exact ⟨a :: s, by simp [List.dropWhile_cons, hp, hs]⟩
    | false => exact ⟨[], by simp [List.dropWhile_cons, hp]⟩

theorem head_dropWhile_neg {α : Type} (p : α → Bool) :
    ∀ (l : List α) (a : α) (t : List α), l.dropWhile p = a :: t → p a = false := by
  intro l
  induction l with
  | nil => intro a t h; simp at h
  | cons b r ih =>
    intro a t h
    cases hp : p b with
    | true =>
      rw [List.dropWhile_cons, if_pos hp] at h
      exact ih a t h
    | false =>
      rw [List.dropWhile_cons, if_neg (by simp [hp])] at h
      exact (List.cons.inj h).1 ▸ hp

theorem mem_of_mem_dropWhile {α : Type} (p : α → Bool) {a : α} {l : List α}
    (h : a ∈ l.dropWhile p) : a ∈ l := by
  obtain ⟨t, ht⟩ := exists_append_dropWhile p l
  rw [← ht]
  exact List.mem_append_right t h

theorem mem_of_mem_pyStrip {a : Char} {l : List Char}
    (h : a ∈ pyStrip l) : a ∈ l := by
  unfold pyStrip at h
  rw [List.mem_reverse] at h
  have h1 := mem_of_mem_dropWhile _ h
  rw [List.mem_reverse] at h1
  exact mem_of_mem_dropWhile _ h1

theorem pyStrip_idem (l : List Char) : pyStrip (pyStrip l) = pyStrip l := by
  unfold pyStrip
  generalize hd : l.dropWhile Char.isWhitespace = d at *
  have h1 : (d.reverse.dropWhile Char.isWhitespace).reverse.dropWhile Char.isWhitespace
      = (d.reverse.dropWhile Char.isWhitespace).reverse := by
    cases hm : (d.reverse.dropWhile Char.isWhitespace).reverse with
    | nil => rfl
    | cons a t =>
      have hda : ∃ s, d = a :: (t ++ s) := by
        obtain ⟨s, hs⟩ := exists_append_dropWhile Char.isWhitespace d.reverse
        refine ⟨s.reverse, ?_⟩
        have : d = (d.reverse.dropWhile Char.isWhitespace).reverse ++ s.reverse := by
          rw [← List.reverse_append, hs, List.reverse_reverse]
        rw [this, hm, List.cons_append]
      obtain ⟨s, hsd⟩ := hda
      have hpa : Char.isWhitespace a = false :=
        head_dropWhile_neg Char.isWhitespace l a (t ++ s) (by rw [hd, hsd])
      rw [List.dropWhile_cons, if_neg (by simp [hpa])]
  rw [h1, List.reverse_reverse, dropWhile_self_idem]

theorem pySanitize_idem (s : String) : pySanitize (pySanitize s) = pySanitize s := by
  by_cases he : String.mk (pyStrip (s.data.filter pyKeepChar)) = ""
  · have h1 : pySanitize s = "output" := by
      simp only [pySanitize]
      rw [if_pos he]
    rw [h1]
    rfl
  · have h1 : pySanitize s = String.mk (pyStrip (s.data.filter pyKeepChar)) := by
      simp only [pySanitize]
      rw [if_neg he]
    rw [h1]
    simp only [pySanitize]
    have hfilter : (pyStrip (s.data.filter pyKeepChar)).filter pyKeepChar
        = pyStrip (s.data.filter pyKeepChar) := by
      rw [List.filter_eq_self]
      intro a ha
      exact List.of_mem_filter (mem_of_mem_pyStrip ha)
    show (if String.mk (pyStrip ((pyStrip (s.data.filter pyKeepChar)).filter pyKeepChar)) = ""
          then "output"
          else String.mk (pyStrip ((pyStrip (s.data.filter pyKeepChar)).filter pyKeepChar)))
        = String.mk (pyStrip (s.data.filter pyKeepChar))
    rw [hfilter, pyStrip_idem, if_neg he]

/-! ## Helper lemmas: `pyDedup` -/

theorem mem_pyDedupGo {a : String} :
    ∀ (l seen : List String), a ∈ pyDedupGo seen l → a ∈ l ∧ a ∉ seen := by
  intro l
  induction l with
  | nil => intro seen h; simp [pyDedupGo] at h
  | cons b t ih =>
    intro seen h
    by_cases hb : b ∈ seen
    · rw [pyDedupGo, if_pos hb] at h
      obtain ⟨h1, h2⟩ := ih seen h
      exact ⟨List.mem_cons_of_mem b h1, h2⟩
    · rw [pyDedupGo, if_neg hb] at h
      rcases List.mem_cons.mp h with h1 | h1
      · exact ⟨h1 ▸ List.mem_cons_self b t, h1 ▸ hb⟩
      · obtain ⟨h2, h3⟩ := ih (seen ++ [b]) h1
        exact ⟨List.mem_cons_of_mem b h2,
               fun hc => h3 (List.mem_append_left [b] hc)⟩

theorem nodup_pyDedupGo :
    ∀ (l seen : List String), (pyDedupGo seen l).Nodup := by
  intro l
  induction l with
  | nil => intro seen; simp [pyDedupGo]
  | cons b t ih =>
    intro seen
    by_cases hb : b ∈ seen
    · rw [pyDedupGo, if_pos hb]; exact ih seen
    · rw [pyDedupGo, if_neg hb]
      refine List.nodup_cons.mpr ⟨?_, ih (seen ++ [b])⟩
      intro hc
      exact (mem_pyDedupGo t (seen ++ [b]) hc).2
        (List.mem_append_right seen (List.mem_singleton.mpr rfl))

theorem nodup_pyDedup (l : List String) : (pyDedup l).Nodup :=
  nodup_pyDedupGo l []

theorem mem_pyDedup {a : String} {l : List String} (h : a ∈ pyDedup l) : a ∈ l :=
  (mem_pyDedupGo l [] h).1

theorem pairwise_indexOf_pyDedupGo :
    ∀ (l seen : List String),
      (pyDedupGo seen l).Pairwise (fun p q => l.indexOf p < l.indexOf q) := by
  intro l
  induction l with
  | nil => intro seen; simp [pyDedupGo]
  | cons b t ih =>
    intro seen
    by_cases hb : b ∈ seen
    · rw [pyDedupGo, if_pos hb]
      refine (ih seen).imp_of_mem ?_
      intro p q hp hq hlt
      have hpb : p ≠ b := fun hc => (mem_pyDedupGo t seen hp).2 (hc ▸ hb)
      have hqb : q ≠ b := fun hc => (mem_pyDedupGo t seen hq).2 (hc ▸ hb)
      rw [List.indexOf_cons_ne t (fun hc => hpb hc.symm),
          List.indexOf_cons_ne t (fun hc => hqb hc.symm)]
      exact Nat.succ_lt_succ hlt
    · rw [pyDedupGo, if_neg hb]
      refine List.pairwise_cons.mpr ⟨?_, ?_⟩
      · intro q hq
        have hqb : q ≠ b := fun hc =>
          (mem_pyDedupGo t (seen ++ [b]) hq).2
            (hc ▸ List.mem_append_right seen (List.mem_singleton.mpr rfl))
        rw [List.indexOf_cons_self, List.indexOf_cons_ne t (fun hc => hqb hc.symm)]
        exact Nat.succ_pos _
      · refine (ih (seen ++ [b])).imp_of_mem ?_
        intro p q hp hq hlt
        have hpb : p ≠ b := fun hc =>
          (mem_pyDedupGo t (seen ++ [b]) hp).2
            (hc ▸ List.mem_append_right seen (List.mem_singleton.mpr rfl))
        have hqb : q ≠ b := fun hc =>
          (mem_pyDedupGo t (seen ++ [b]) hq).2
            (hc ▸ List.mem_append_right seen (List.mem_singleton.mpr rfl))
        rw [List.indexOf_cons_ne t (fun hc => hpb hc.symm),
            List.indexOf_cons_ne t (fun hc => hqb hc.symm)]
        exact Nat.succ_lt_succ hlt

theorem pairwise_indexOf_pyDedup (l : List String) :
    (pyDedup l).Pairwise (fun p q => l.indexOf p < l.indexOf q) :=
  pairwise_indexOf_pyDedupGo l []

/-! ## Helper lemmas: the tool-call loop and the step loop -/

/-- A turn without a `finish` call only grows the file list: every other
loop-state field is left unchanged. -/
theorem processToolCalls_spec (exec : ToolCall → ToolResult) :
    ∀ (tcs : List ToolCall) (st : LoopState), (∀ tc ∈ tcs, tc.name ≠ "finish") →
      ∃ cf, processToolCalls exec st tcs = { st with createdFiles := cf } := by
  intro tcs
  induction tcs with
  | nil => intro st _; exact ⟨st.createdFiles, rfl⟩
  | cons tc rest ih =>
    intro st h
    have hname : tc.name ≠ "finish" := h tc (List.mem_cons_self tc rest)
    rw [processToolCalls, if_neg hname]
    by_cases hd : st.done = true
    · exact ⟨trackFiles st.createdFiles (exec tc), by rw [if_pos hd]⟩
    · obtain ⟨cf, hcf⟩ :=
        ih { st with createdFiles := trackFiles st.createdFiles (exec tc) }
          (fun tc2 h2 => h tc2 (List.mem_cons_of_mem tc h2))
      exact ⟨cf, by rw [if_neg hd, hcf]⟩

/-- A `finish` call short-circuits the rest of the turn: the calls before
the first `finish` are dispatched, then `finishApply` ends the turn and the
queued calls after it are never reached. -/
theorem processToolCalls_finish (exec : ToolCall → ToolResult) :
    ∀ (pre : List ToolCall) (st : LoopState), st.done = false →
      (∀ tc ∈ pre, tc.name ≠ "finish") →
      ∀ (f : ToolCall) (post : List ToolCall), f.name = "finish" →
        processToolCalls exec st (pre ++ f :: post)
          = finishApply (processToolCalls exec st pre) f := by
  intro pre
  induction pre with
  | nil =>
    intro st _ _ f post hf
    simp only [List.nil_append, processToolCalls]
    rw [if_pos hf]
  | cons tc pre2 ih =>
    intro st hdone h f post hf
    have hname : tc.name ≠ "finish" := h tc (List.mem_cons_self tc pre2)
    have hd : ¬ st.done = true := by rw [hdone]; exact (by decide)
    show processToolCalls exec st (tc :: (pre2 ++ f :: post))
        = finishApply (processToolCalls exec st (tc :: pre2)) f
    rw [processToolCalls, if_neg hname, if_neg hd,
        processToolCalls, if_neg hname, if_neg hd]
    exact ih { st with createdFiles := trackFiles st.createdFiles (exec tc) }
      hdone (fun tc2 h2 => h tc2 (List.mem_cons_of_mem tc h2)) f post hf

/-- The turn's outcome only depends on the dispatcher's behaviour on the
calls of the turn. -/
theorem processToolCalls_congr (exec exec2 : ToolCall → ToolResult) :
    ∀ (tcs : List ToolCall) (st : LoopState),
      (∀ tc ∈ tcs, exec2 tc = exec tc) →
      processToolCalls exec2 st tcs = processToolCalls exec st tcs := by
  intro tcs
  induction tcs with
  | nil => intro st _; rfl
  | cons tc rest ih =>
    intro st h
    rw [processToolCalls, processToolCalls, h tc (List.mem_cons_self tc rest)]
    by_cases hf : tc.name = "finish"
    · rw [if_pos hf, if_pos hf]
    · by_cases hd : st.done = true
      · rw [if_neg hf, if_neg hf, if_pos hd, if_pos hd]
      · rw [if_neg hf, if_neg hf, if_neg hd, if_neg hd,
            ih _ (fun tc2 h2 => h tc2 (List.mem_cons_of_mem tc h2))]

/-- Once `done` is set, the while loop never runs another iteration. -/
theorem engineGo_done (maxSteps : Nat) (trace : Nat → ProviderOutcome)
    (exec : ToolCall → ToolResult) :
    ∀ (fuel : Nat) (st : LoopState), st.done = true →
      engineGo maxSteps trace exec fuel st = st := by
  intro fuel st h
  cases fuel with
  | zero => rfl
  | succ n =>
    rw [engineGo, if_neg]
    intro hc
    rw [h] at hc
    exact absurd hc.2 (by decide)

/-- Unfolding of one active loop iteration whose provider turn carries a
non-empty tool-call list. -/
theorem engineGo_succ_reply (maxSteps : Nat) (trace : Nat → ProviderOutcome)
    (exec : ToolCall → ToolResult) (n : Nat) (st : LoopState)
    (c : Option String) (tcs : List ToolCall)
    (hcond : st.step < maxSteps ∧ st.done = false)
    (htr : trace (st.step + 1) = .reply c tcs) (hne : tcs ≠ []) :
    engineGo maxSteps trace exec (n + 1) st
      = engineGo maxSteps trace exec n
          (processToolCalls exec { st with step := st.step + 1 } tcs) := by
  rw [engineGo, if_pos hcond, htr]
  exact if_neg hne

/-- Invariant run of the loop for C3: while every provider turn is a
successful reply with tool calls and no `finish`, the loop keeps iterating
(only `step` and `createdFiles` change) until the step ceiling. -/
theorem engineGo_no_terminal (maxSteps : Nat) (trace : Nat → ProviderOutcome)
    (exec : ToolCall → ToolResult) :
    ∀ (fuel : Nat) (st : LoopState), st.done = false → st.step + fuel = maxSteps →
      (∀ i, st.step < i → i ≤ maxSteps →
        ∃ c tcs, trace i = .reply c tcs ∧ tcs ≠ [] ∧ ∀ tc ∈ tcs, tc.name ≠ "finish") →
      ∃ cf, engineGo maxSteps trace exec fuel st
        = { st with step := maxSteps, createdFiles := cf } := by
  intro fuel
  induction fuel with
  | zero =>
    intro st _ hstep _
    have h1 : st.step = maxSteps := by omega
    exact ⟨st.createdFiles, by rw [← h1]; rfl⟩
  | succ n ih =>
    intro st hdone hstep h
    have hlt : st.step < maxSteps := by omega
    obtain ⟨c, tcs, htr, hne, hnf⟩ := h (st.step + 1) (Nat.lt_succ_self _) (by omega)
    rw [engineGo_succ_reply maxSteps trace exec n st c tcs ⟨hlt, hdone⟩ htr hne]
    obtain ⟨cf1, hcf1⟩ :=
      processToolCalls_spec exec tcs { st with step := st.step + 1 } hnf
    rw [hcf1]
    obtain ⟨cf, hcf⟩ :=
      ih { st with step := st.step + 1, createdFiles := cf1 } hdone
        (by show st.step + 1 + n = maxSteps; omega)
        (fun i h1 h2 => by
          have h1a : st.step + 1 < i := h1
          exact h i (by omega) h2)
    exact ⟨cf, by rw [hcf]⟩

/-- The source's fused extract-and-check marker loop agrees with the
spec-side description: first collect every announced path, then keep the
ones that exist. -/
theorem collectMarkerFiles_eq_filter (fsEx : String → Bool) :
    ∀ lines : List String,
      collectMarkerFiles fsEx lines = (announcedPaths lines).filter fsEx := by
  intro lines
  induction lines with
  | nil => rfl
  | cons line rest ih =>
    rw [collectMarkerFiles, announcedPaths]
    by_cases h1 : strStartsWith (pyStripStr line) "FILE:" = true
    · have hm : markerPath line = some (pyStripStr (strDrop (pyStripStr line) 5)) := by
        rw [markerPath, if_pos h1]
      rw [if_pos h1, List.filterMap_cons_some hm]
      by_cases h2 : fsEx (pyStripStr (strDrop (pyStripStr line) 5)) = true
      · rw [if_pos h2, List.filter_cons_of_pos h2, ih, announcedPaths]
      · rw [if_neg h2, List.filter_cons_of_neg h2, ih, announcedPaths]
    · rw [if_neg h1]
      by_cases h3 : strStartsWith (pyStripStr line) "ARTIFACT_PATH:" = true
      · have hm : markerPath line
            = some (pyStripStr (strDrop (pyStripStr line) 14)) := by
          rw [markerPath, if_neg h1, if_pos h3]
        rw [if_pos h3, List.filterMap_cons_some hm]
        by_cases h4 : fsEx (pyStripStr (strDrop (pyStripStr line) 14)) = true
        · rw [if_pos h4, List.filter_cons_of_pos h4, ih, announcedPaths]
        · rw [if_neg h4, List.filter_cons_of_neg h4, ih, announcedPaths]
      · have hm : markerPath line = none := by
          rw [markerPath, if_neg h1, if_neg h3]
        rw [if_neg h3, List.filterMap_cons_none hm, ih, announcedPaths]

/-- The finalized artifact list is always the de-duplicated,
existence-filtered raw list, in both the timeout and the terminal case. -/
theorem finalizeSession_created_files (maxSteps : Nat) (fsEx : String → Bool)
    (st : LoopState) :
    (finalizeSession maxSteps fsEx st).created_files
      = (pyDedup st.createdFiles).filter (fun f => decide (f ≠ "") && fsEx f) := by
  rw [finalizeSession]
  split
  · rfl
  · rfl

/-! ## Concrete fixtures for closed evaluations -/

/-- A dispatcher oracle returning a result with no produced files. -/
def execZero : ToolCall → ToolResult := fun _ => { filePath := none, filePaths := none }

/-- An existence oracle under which no path exists. -/
def fsExFalse : String → Bool := fun _ => false

/-- An existence oracle under which every path exists. -/
def fsExTrue : String → Bool := fun _ => true

/-- A provider trace whose every call raises. -/
def traceBoom : Nat → ProviderOutcome := fun _ => .failure "boom"

/-- A non-`finish` tool call. -/
def tcSearch : ToolCall :=
  { id := "call1", name := "search_web", argSummary := none, argDeliverables := [] }

/-- A `finish` tool call with a summary and one declared deliverable. -/
def tcFinish : ToolCall :=
  { id := "call2", name := "finish", argSummary := some "All deliverables ready.",
    argDeliverables := ["/out/a.txt"] }

/-- A tool call queued after `finish` in the same turn. -/
def tcAfter : ToolCall :=
  { id := "call3", name := "create_file", argSummary := none, argDeliverables := [] }

/-- A provider trace whose every turn queues a call, then `finish`, then
another call. -/
def traceFinish : Nat → ProviderOutcome :=
  fun _ => .reply none [tcSearch, tcFinish, tcAfter]

/-- A dispatcher oracle producing one file for the first queued call. -/
def execSearch : ToolCall → ToolResult := fun tc =>
  if tc.id = "call1" then { filePath := some "/out/s.txt", filePaths := none }
  else { filePath := none, filePaths := none }

/-- A provider trace whose every turn is one non-`finish` tool call. -/
def traceTools : Nat → ProviderOutcome := fun _ => .reply none [tcSearch]

/-- A Tavily oracle that raises (no key / client error). -/
def tavilyFail : String → Nat → Except String (List TavilyItem) :=
  fun _ _ => .error "no tavily"

/-- Eleven DuckDuckGo related topics, each a dict with a Text key. -/
def ddgEleven : List DdgTopic :=
  List.replicate 11 (.entry (some "topic text") none)

/-- A docx rendering backend that raises. -/
def docxFail : String → Except String String := fun _ => .error "docx unavailable"

/-- A pdf rendering backend that raises. -/
def pdfFail : String → Except String String := fun _ => .error "no pdf backend"

/-- An empty filesystem. -/
def fsEmpty : FS := fun _ => none

/-- A filesystem already holding a file at the path `create_file` would
target for filename `output` and type `xyz` under `/out`. -/
def fsPre : FS := fun p => if p = "/out/output.xyz" then some "old" else none

/-! ## The claims -/

/-- C1: evaluation of the engine at a run whose first provider call raises
with message `boom` and step ceiling 3. The loop does end immediately
(`steps = 1`, no retry) with the error message recorded, but the terminal
status in the returned and persisted record is `timeout`, not `error`: the
`except` branch sets status `error` and breaks with `done` still false, so
the post-loop `if not done` block overwrites status and summary. This
contradicts the claim (and the engine's own docstring and the intent of
its `error` branch), so the claim marks a code bug. -/
theorem claim_C1_provider_failure_eval :
    runPipeline 3 traceBoom execZero fsExFalse
      = { status := "timeout", summary := "Reached max steps (3).",
          error := some "boom", created_files := [], steps := 1 } := by
  decide

/-- C2: a `finish` tool call terminates the run within that same step:
the loop state after the whole run equals `finishApply` of the state after
the calls queued before `finish` (so the queued calls after it are never
reached and the run stops); the finalized record has status `complete`,
step count of the current step, and the agent-supplied summary;
`finishApply` merges the declared deliverables into the artifact list; and
the run's outcome depends on the dispatcher only at the calls before
`finish`, so `finish` itself is never routed through it. -/
theorem claim_C2_finish_short_circuit
    (maxSteps fuel : Nat) (trace : Nat → ProviderOutcome)
    (exec : ToolCall → ToolResult) (fsEx : String → Bool) (st : LoopState)
    (c : Option String) (pre post : List ToolCall) (f : ToolCall)
    (hdone : st.done = false) (hstep : st.step < maxSteps) (hfuel : 1 ≤ fuel)
    (htrace : trace (st.step + 1) = .reply c (pre ++ f :: post))
    (hpre : ∀ tc ∈ pre, tc.name ≠ "finish") (hf : f.name = "finish") :
    engineGo maxSteps trace exec fuel st
      = finishApply (processToolCalls exec { st with step := st.step + 1 } pre) f
    ∧ (finalizeSession maxSteps fsEx (engineGo maxSteps trace exec fuel st)).status
        = "complete"
    ∧ (finalizeSession maxSteps fsEx (engineGo maxSteps trace exec fuel st)).steps
        = st.step + 1
    ∧ (finalizeSession maxSteps fsEx (engineGo maxSteps trace exec fuel st)).summary
        = f.argSummary.getD ""
    ∧ ∀ exec2 : ToolCall → ToolResult, (∀ tc ∈ pre, exec2 tc = exec tc) →
        engineGo maxSteps trace exec2 fuel st
          = engineGo maxSteps trace exec fuel st := by
  obtain ⟨n, rfl⟩ : ∃ n, fuel = n + 1 := ⟨fuel - 1, by omega⟩
  have hne : pre ++ f :: post ≠ [] := by simp
  have key : ∀ e : ToolCall → ToolResult, (∀ tc ∈ pre, e tc = exec tc) →
      engineGo maxSteps trace e (n + 1) st
        = finishApply (processToolCalls exec { st with step := st.step + 1 } pre) f := by
    intro e he
    rw [engineGo_succ_reply maxSteps trace e n st c _ ⟨hstep, hdone⟩ htrace hne,
        processToolCalls_finish e pre { st with step := st.step + 1 } hdone hpre f post hf,
        processToolCalls_congr exec e pre { st with step := st.step + 1 } he]
    exact engineGo_done maxSteps trace e n _ rfl
  have h1 := key exec (fun _ _ => rfl)
  obtain ⟨cf, hcf⟩ :=
    processToolCalls_spec exec pre { st with step := st.step + 1 } hpre
  refine ⟨h1, ?_, ?_, ?_, fun e he => (key e he).trans h1.symm⟩
  · rw [h1, hcf]
    rfl
  · rw [h1, hcf]
    rfl
  · rw [h1, hcf]
    rfl

/-- Witness for C2 at a concrete run: ceiling 5, one turn queueing
a search call, then `finish` with summary and deliverable, then another
call. -/
theorem claim_C2_witness :
    engineGo 5 traceFinish execSearch 5 initState
      = finishApply (processToolCalls execSearch { initState with step := 0 + 1 }
          [tcSearch]) tcFinish
    ∧ (finalizeSession 5 fsExTrue (engineGo 5 traceFinish execSearch 5 initState)).status
        = "complete"
    ∧ (finalizeSession 5 fsExTrue (engineGo 5 traceFinish execSearch 5 initState)).steps
        = 0 + 1
    ∧ (finalizeSession 5 fsExTrue (engineGo 5 traceFinish execSearch 5 initState)).summary
        = tcFinish.argSummary.getD ""
    ∧ ∀ exec2 : ToolCall → ToolResult, (∀ tc ∈ [tcSearch], exec2 tc = execSearch tc) →
        engineGo 5 traceFinish exec2 5 initState
          = engineGo 5 traceFinish execSearch 5 initState :=
  claim_C2_finish_short_circuit 5 5 traceFinish execSearch fsExTrue initState
    none [tcSearch] [tcAfter] tcFinish rfl (by decide) (by decide) rfl
    (by decide) rfl

/-- C3: for every step ceiling N with 1 ≤ N, a run in which every
provider call up to step N succeeds with a non-empty tool-call list
containing no `finish` terminates with status `timeout` and recorded step
count exactly N. -/
theorem claim_C3_timeout_at_ceiling (N : Nat) (trace : Nat → ProviderOutcome)
    (exec : ToolCall → ToolResult) (fsEx : String → Bool)
    (_hN : 1 ≤ N)
    (h : ∀ i, 1 ≤ i → i ≤ N →
      ∃ c tcs, trace i = .reply c tcs ∧ tcs ≠ [] ∧ ∀ tc ∈ tcs, tc.name ≠ "finish") :
    (runPipeline N trace exec fsEx).status = "timeout"
    ∧ (runPipeline N trace exec fsEx).steps = N := by
  obtain ⟨cf, hcf⟩ :=
    engineGo_no_terminal N trace exec N initState rfl
      (by show 0 + N = N; omega)
      (fun i h1 h2 => h i h1 h2)
  rw [runPipeline, hcf]
  exact ⟨rfl, rfl⟩

/-- Witness for C3 at N = 2 with a constant one-tool-call trace. -/
theorem claim_C3_witness :
    1 ≤ 2
    ∧ (runPipeline 2 traceTools execZero fsExFalse).status = "timeout"
    ∧ (runPipeline 2 traceTools execZero fsExFalse).steps = 2 := by
  have h := claim_C3_timeout_at_ceiling 2 traceTools execZero fsExFalse
    (by decide)
    (fun i h1 h2 => ⟨none, [tcSearch], rfl, by decide, by decide⟩)
  exact ⟨by decide, h.1, h.2⟩

/-- C4: in every finalized session record, the artifact list has no
duplicates, every listed path exists under the finalize-time existence
oracle, and the list preserves first-seen order: paths appear ordered by
the index of their first occurrence in the raw accumulated file list. -/
theorem claim_C4_created_files_clean (maxSteps : Nat)
    (trace : Nat → ProviderOutcome) (exec : ToolCall → ToolResult)
    (fsEx : String → Bool) :
    (runPipeline maxSteps trace exec fsEx).created_files.Nodup
    ∧ (runPipeline maxSteps trace exec fsEx).created_files.all fsEx = true
    ∧ (runPipeline maxSteps trace exec fsEx).created_files.Pairwise
        (fun p q => (rawFiles maxSteps trace exec).indexOf p
                  < (rawFiles maxSteps trace exec).indexOf q) := by
  have hcf : (runPipeline maxSteps trace exec fsEx).created_files
      = (pyDedup (rawFiles maxSteps trace exec)).filter
          (fun f => decide (f ≠ "") && fsEx f) := by
    rw [runPipeline, finalizeSession_created_files]
    rfl
  refine ⟨?_, ?_, ?_⟩
  · rw [hcf]
    exact (nodup_pyDedup _).filter _
  · rw [hcf, List.all_eq_true]
    intro p hp
    have h1 := (List.mem_filter.mp hp).2
    simp only [Bool.and_eq_true] at h1
    exact h1.2
  · rw [hcf]
    exact (pairwise_indexOf_pyDedup _).sublist (List.filter_sublist _)

/-- Witness for C4 at a concrete run (ceiling 2, one tool call per turn,
no path existing at finalize time). -/
theorem claim_C4_witness :
    (runPipeline 2 traceTools execZero fsExFalse).created_files.Nodup
    ∧ (runPipeline 2 traceTools execZero fsExFalse).created_files.all fsExFalse = true
    ∧ (runPipeline 2 traceTools execZero fsExFalse).created_files.Pairwise
        (fun p q => (rawFiles 2 traceTools execZero).indexOf p
                  < (rawFiles 2 traceTools execZero).indexOf q) :=
  claim_C4_created_files_clean 2 traceTools execZero fsExFalse

/-- C5: evaluation of `_search_web` on its DuckDuckGo fallback path with
`max_results = 11` and eleven related topics: the returned result list has
11 entries, exceeding the documented cap of 10. The primary path passes
`min(max_results, 10)` to the provider, but the fallback slices
`[:max_results]` without the cap, contradicting the tool's own
declaration (default 5, max 10): a code bug. -/
theorem claim_C5_fallback_cap_exceeded :
    (search_web none tavilyFail (.ok ddgEleven) "query" 11).results.length = 11
    ∧ 10 < (search_web none tavilyFail (.ok ddgEleven) "query" 11).results.length := by
  exact ⟨by decide, by decide⟩

/-- C6 counterexample: with filename `report` and a failing pdf backend,
the plain-text fallback is written at `/out/report_fallback.txt`, whose
name does not carry a `.note` suffix (it carries `_fallback.txt`);
the claim's `.note` wording is false on the code. -/
theorem claim_C6_counterexample :
    (create_file docxFail pdfFail fsEmpty "report" "hello" "pdf" "/out").1.file_path
      = some "/out/report_fallback.txt"
    ∧ strHasSuffix "/out/report_fallback.txt" ".note" = false
    ∧ strHasSuffix "/out/report_fallback.txt" "_fallback.txt" = true := by
  exact ⟨by decide, by decide, by decide⟩

/-- C6 (amended): when PDF generation fails inside `create_file`, the same
content is written to a plain-text fallback file whose name is the target
path with `.pdf` replaced by `_fallback.txt`, and the result reports the
fallback through the status field `created_as_txt` and the explanatory
`note` field, with no error and the content preserved at the fallback
path. -/
theorem claim_C6_pdf_fallback (docxRender : String → Except String String)
    (m : String) (fs : FS) (filename content output_dir : String) :
    (create_file docxRender (fun _ => .error m) fs filename content "pdf"
        output_dir).1.status = some "created_as_txt"
    ∧ (create_file docxRender (fun _ => .error m) fs filename content "pdf"
        output_dir).1.note
        = some ("PDF generation failed (" ++ m ++ "), saved as txt")
    ∧ (create_file docxRender (fun _ => .error m) fs filename content "pdf"
        output_dir).1.file_path = some (pdfFallbackPath output_dir filename)
    ∧ (create_file docxRender (fun _ => .error m) fs filename content "pdf"
        output_dir).1.error = none
    ∧ (create_file docxRender (fun _ => .error m) fs filename content "pdf"
        output_dir).2 (pdfFallbackPath output_dir filename) = some content := by
  refine ⟨rfl, rfl, rfl, rfl, ?_⟩
  show fsWrite fs (pdfFallbackPath output_dir filename) content
      (pdfFallbackPath output_dir filename) = some content
  rw [fsWrite, if_pos rfl]

/-- C7: for a completed sandbox run, the reported file list of
`execute_python` is exactly the list of paths announced on stdout through
the `FILE:` / `ARTIFACT_PATH:` marker protocol, filtered to those that
exist: announced paths that do not exist are excluded. -/
theorem claim_C7_marker_protocol (fsEx : String → Bool)
    (stdout stderr : String) (code : Int) :
    (execute_python fsEx (.completed stdout stderr code)).file_paths
      = (announcedPaths (pySplitlines stdout)).filter fsEx := by
  show collectMarkerFiles fsEx (pySplitlines stdout) = _
  exact collectMarkerFiles_eq_filter fsEx (pySplitlines stdout)

/-- C8: when the sandboxed process hits the hard 90-second timeout,
`execute_python` returns a result carrying an error field and an empty
file-path list (the `subprocess.TimeoutExpired` handler), rather than
propagating the exception. -/
theorem claim_C8_timeout_result (fsEx : String → Bool) :
    (execute_python fsEx .timedOut).error = some "Code execution timed out (90s)"
    ∧ (execute_python fsEx .timedOut).file_paths = [] :=
  ⟨rfl, rfl⟩

/-- C9: the filename sanitization of `create_file` (keep alphanumerics
and space, dot, underscore, hyphen; strip; default to `output` when
empty) is idempotent. -/
theorem claim_C9_sanitize_idempotent (s : String) :
    pySanitize (pySanitize s) = pySanitize s :=
  pySanitize_idem s

/-- C10 counterexample: for the unsupported type `xyz`, when a file
already exists at the target path (written earlier, e.g. by
`execute_python`), `create_file` writes nothing but returns a
success-shaped result (status `created`, a file path, no error) because
the fall-through `os.path.getsize` succeeds — not the error-shaped result
the claim asserts for every unsupported type. -/
theorem claim_C10_counterexample :
    (create_file docxFail pdfFail fsPre "output" "new content" "xyz" "/out").1.error
      = none
    ∧ (create_file docxFail pdfFail fsPre "output" "new content" "xyz" "/out").1.status
      = some "created"
    ∧ (create_file docxFail pdfFail fsPre "output" "new content" "xyz" "/out").1.file_path
      = some "/out/output.xyz"
    ∧ (create_file docxFail pdfFail fsPre "output" "new content" "xyz" "/out").2
      = fsPre := by
  refine ⟨by decide, by decide, by decide, ?_⟩
  show fsPre = fsPre
  rfl

/-- C10 (amended): for every `file_type` outside the supported set
(`txt`, `md`, `csv`, `json`, `docx`, `pdf`), `create_file` writes no file
(the filesystem is returned unchanged); and provided no file already
exists at the target path, it returns an error-shaped result —
`file_path` is `None` and an error field is present — instead of
raising. -/
theorem claim_C10_unsupported_type
    (docxRender pdfRender : String → Except String String) (fs : FS)
    (filename content file_type output_dir : String)
    (hft : file_type ∉ supportedText ∧ file_type ≠ "docx" ∧ file_type ≠ "pdf")
    (hfs : fs (output_dir ++ "/" ++ pySanitize filename ++ "." ++ file_type) = none) :
    (create_file docxRender pdfRender fs filename content file_type output_dir).2 = fs
    ∧ (create_file docxRender pdfRender fs filename content file_type
        output_dir).1.file_path = none
    ∧ (create_file docxRender pdfRender fs filename content file_type
        output_dir).1.error.isSome = true
    ∧ (create_file docxRender pdfRender fs filename content file_type
        output_dir).1.status = none := by
  obtain ⟨h1, h2, h3⟩ := hft
  simp only [create_file]
  rw [if_neg h1, if_neg h2, if_neg h3, hfs]
  exact ⟨rfl, rfl, rfl, rfl⟩

/-- Witness for C10 (amended) at type `xyz` over an empty filesystem. -/
theorem claim_C10_witness :
    ("xyz" ∉ supportedText ∧ "xyz" ≠ "docx" ∧ "xyz" ≠ "pdf")
    ∧ fsEmpty ("/o" ++ "/" ++ pySanitize "f" ++ "." ++ "xyz") = none
    ∧ (create_file docxFail pdfFail fsEmpty "f" "c" "xyz" "/o").2 = fsEmpty
    ∧ (create_file docxFail pdfFail fsEmpty "f" "c" "xyz" "/o").1.file_path = none
    ∧ (create_file docxFail pdfFail fsEmpty "f" "c" "xyz" "/o").1.error.isSome = true
    ∧ (create_file docxFail pdfFail fsEmpty "f" "c" "xyz" "/o").1.status = none := by
  have h := claim_C10_unsupported_type docxFail pdfFail fsEmpty "f" "c" "xyz" "/o"
    (by decide) rfl
  exact ⟨by decide, rfl, h.1, h.2.1, h.2.2.1, h.2.2.2⟩

end ClawWork
